import Mathlib

/-!
Verification development for the dockster multi-source extraction pipeline
(`src/app.py`): a shallow embedding of the response parser, the PDF-page and
DOCX-unit extractors, the image dispatch branch, and the export formatter,
together with theorems settling the specified properties.

Modelling conventions:
* Python/JSON values are embedded as the inductive `Json` (a JSON number keeps
  its source lexeme).
* `json.loads` is modelled by `json_loads`, a fuel-based recursive-descent
  parser over the JSON grammar (objects, arrays, strings with escapes,
  numbers, literals, plus Python's accepted `NaN`/`Infinity` extensions);
  `none` models a raised `json.JSONDecodeError`.
* The external model API is an oracle: each unit's reply is an
  `Option String` (`none` models a transport failure, where
  `get_gemini_response` returns `None`).
* Streamlit warnings are modelled as the list of 1-indexed unit numbers for
  which a warning was emitted.
-/

namespace Dockster

/-- Embedded JSON / Python values.  A number stores its raw lexeme. -/
inductive Json where
  | null : Json
  | bool (b : Bool) : Json
  | num (lexeme : String) : Json
  | str (s : String) : Json
  | arr (elems : List Json) : Json
  | obj (fields : List (String × Json)) : Json

/-- The character `\x7b` (opening curly brace). -/
def lbrace : Char := Char.ofNat 123

/-- The character `\x7d` (closing curly brace). -/
def rbrace : Char := Char.ofNat 125

/-- Python `str.find(c)`: index of the first occurrence, `none` for `-1`. -/
def pyFind : List Char → Char → Option Nat
  | [], _ => none
  | c :: cs, t => if c = t then some 0 else (pyFind cs t).map (fun i => i + 1)

/-- Python `str.rfind(c)`: index of the last occurrence, `none` for `-1`. -/
def pyRFind : List Char → Char → Option Nat
  | [], _ => none
  | c :: cs, t =>
    match pyRFind cs t with
    | some i => some (i + 1)
    | none => if c = t then some 0 else none

/-- JSON insignificant whitespace. -/
def isJsonWs (c : Char) : Bool :=
  c = ' ' ∨ c = '\t' ∨ c = '\n' ∨ c = '\r'

/-- Skip JSON whitespace. -/
def skipWs : List Char → List Char
  | [] => []
  | c :: cs => if isJsonWs c then skipWs cs else c :: cs

/-- Longest digit prefix and the remainder. -/
def takeDigits : List Char → List Char × List Char
  | [] => ([], [])
  | c :: cs =>
    if c.isDigit then
      let p := takeDigits cs
      (c :: p.1, p.2)
    else ([], c :: cs)

/-- JSON integer part: `0` or a nonzero digit followed by digits. -/
def parseIntPart : List Char → Option (List Char × List Char)
  | [] => none
  | c :: cs =>
    if c = '0' then some ([c], cs)
    else if c.isDigit then
      let p := takeDigits cs
      some (c :: p.1, p.2)
    else none

/-- JSON fraction part (possibly empty). -/
def parseFracPart : List Char → Option (List Char × List Char)
  | '.' :: r =>
    let p := takeDigits r
    if p.1 = [] then none else some ('.' :: p.1, p.2)
  | cs => some ([], cs)

/-- JSON exponent part (possibly empty). -/
def parseExpPart : List Char → Option (List Char × List Char)
  | c :: r =>
    if c = 'e' ∨ c = 'E' then
      match r with
      | s :: r2 =>
        if s = '+' ∨ s = '-' then
          let p := takeDigits r2
          if p.1 = [] then none else some (c :: s :: p.1, p.2)
        else
          let p := takeDigits r
          if p.1 = [] then none else some (c :: p.1, p.2)
      | [] => none
    else some ([], c :: r)
  | [] => some ([], [])

/-- JSON number lexeme starting at the current position (sign already split
off by the caller when present). -/
def parseNumberBody (cs : List Char) : Option (List Char × List Char) :=
  match parseIntPart cs with
  | none => none
  | some (ip, r1) =>
    match parseFracPart r1 with
    | none => none
    | some (fp, r2) =>
      match parseExpPart r2 with
      | none => none
      | some (ep, r3) => some (ip ++ fp ++ ep, r3)

/-- Hex digit value. -/
def hexVal (c : Char) : Option Nat :=
  if '0' ≤ c ∧ c ≤ '9' then some (c.toNat - '0'.toNat)
  else if 'a' ≤ c ∧ c ≤ 'f' then some (c.toNat - 'a'.toNat + 10)
  else if 'A' ≤ c ∧ c ≤ 'F' then some (c.toNat - 'A'.toNat + 10)
  else none

/-- Body of a JSON string after the opening quote; returns the decoded
characters and the remainder after the closing quote.  Unescaped control
characters are rejected, as in Python's strict mode.  A `\uXXXX` escape is
decoded with `Char.ofNat` (lone surrogates collapse to the default
character — a benign model approximation). -/
def parseStringBody : Nat → List Char → Option (List Char × List Char)
  | 0, _ => none
  | _ + 1, [] => none
  | f + 1, c :: cs =>
    if c = '"' then some ([], cs)
    else if c = '\\' then
      match cs with
      | [] => none
      | e :: cs2 =>
        if e = '"' ∨ e = '\\' ∨ e = '/' then
          match parseStringBody f cs2 with
          | some (s, r) => some (e :: s, r)
          | none => none
        else if e = 'b' then
          match parseStringBody f cs2 with
          | some (s, r) => some (Char.ofNat 8 :: s, r)
          | none => none
        else if e = 'f' then
          match parseStringBody f cs2 with
          | some (s, r) => some (Char.ofNat 12 :: s, r)
          | none => none
        else if e = 'n' then
          match parseStringBody f cs2 with
          | some (s, r) => some ('\n' :: s, r)
          | none => none
        else if e = 'r' then
          match parseStringBody f cs2 with
          | some (s, r) => some ('\r' :: s, r)
          | none => none
        else if e = 't' then
          match parseStringBody f cs2 with
          | some (s, r) => some ('\t' :: s, r)
          | none => none
        else if e = 'u' then
          match cs2 with
          | h1 :: h2 :: h3 :: h4 :: cs3 =>
            match hexVal h1, hexVal h2, hexVal h3, hexVal h4 with
            | some v1, some v2, some v3, some v4 =>
              match parseStringBody f cs3 with
              | some (s, r) =>
                some (Char.ofNat (((v1 * 16 + v2) * 16 + v3) * 16 + v4) :: s, r)
              | none => none
            | _, _, _, _ => none
          | _ => none
        else none
    else if c.toNat < 32 then none
    else
      match parseStringBody f cs with
      | some (s, r) => some (c :: s, r)
      | none => none

mutual

/-- Recursive-descent JSON value parser (fuel-based). -/
def parseValue : Nat → List Char → Option (Json × List Char)
  | 0, _ => none
  | f + 1, cs =>
    match skipWs cs with
    | [] => none
    | c :: rest =>
      if c = 'n' then
        match rest with
        | 'u' :: 'l' :: 'l' :: r => some (Json.null, r)
        | _ => none
      else if c = 't' then
        match rest with
        | 'r' :: 'u' :: 'e' :: r => some (Json.bool true, r)
        | _ => none
      else if c = 'f' then
        match rest with
        | 'a' :: 'l' :: 's' :: 'e' :: r => some (Json.bool false, r)
        | _ => none
      else if c = 'N' then
        match rest with
        | 'a' :: 'N' :: r => some (Json.num "NaN", r)
        | _ => none
      else if c = 'I' then
        match rest with
        | 'n' :: 'f' :: 'i' :: 'n' :: 'i' :: 't' :: 'y' :: r =>
          some (Json.num "Infinity", r)
        | _ => none
      else if c = '"' then
        match parseStringBody (f + 1) rest with
        | some (s, r) => some (Json.str (String.mk s), r)
        | none => none
      else if c = '[' then
        parseArrayBody f rest
      else if c = lbrace then
        parseObjBody f rest
      else if c = '-' then
        match rest with
        | 'I' :: 'n' :: 'f' :: 'i' :: 'n' :: 'i' :: 't' :: 'y' :: r =>
          some (Json.num "-Infinity", r)
        | _ =>
          match parseNumberBody rest with
          | some (lex, r) => some (Json.num (String.mk ('-' :: lex)), r)
          | none => none
      else if c.isDigit then
        match parseNumberBody (c :: rest) with
        | some (lex, r) => some (Json.num (String.mk lex), r)
        | none => none
      else none

/-- Array elements after `[`. -/
def parseArrayBody : Nat → List Char → Option (Json × List Char)
  | 0, _ => none
  | f + 1, cs =>
    match skipWs cs with
    | [] => none
    | c :: r =>
      if c = ']' then some (Json.arr [], r)
      else
        match parseValue f (c :: r) with
        | none => none
        | some (v, r2) =>
          match parseArraySep f r2 with
          | none => none
          | some (vs, r3) => some (Json.arr (v :: vs), r3)

/-- After one array element: `,` then more elements, or `]`. -/
def parseArraySep : Nat → List Char → Option (List Json × List Char)
  | 0, _ => none
  | f + 1, cs =>
    match skipWs cs with
    | [] => none
    | c :: r =>
      if c = ']' then some ([], r)
      else if c = ',' then
        match parseValue f r with
        | none => none
        | some (v, r2) =>
          match parseArraySep f r2 with
          | none => none
          | some (vs, r3) => some (v :: vs, r3)
      else none

/-- Object members after the opening brace. -/
def parseObjBody : Nat → List Char → Option (Json × List Char)
  | 0, _ => none
  | f + 1, cs =>
    match skipWs cs with
    | [] => none
    | c :: r =>
      if c = rbrace then some (Json.obj [], r)
      else if c = '"' then
        match parseStringBody (f + 1) r with
        | none => none
        | some (k, r2) =>
          match skipWs r2 with
          | ':' :: r3 =>
            match parseValue f r3 with
            | none => none
            | some (v, r4) =>
              match parseObjSep f r4 with
              | none => none
              | some (ms, r5) => some (Json.obj ((String.mk k, v) :: ms), r5)
          | _ => none
      else none

/-- After one object member: `,` then more members, or the closing brace. -/
def parseObjSep : Nat → List Char → Option (List (String × Json) × List Char)
  | 0, _ => none
  | f + 1, cs =>
    match skipWs cs with
    | [] => none
    | c :: r =>
      if c = rbrace then some ([], r)
      else if c = ',' then
        match skipWs r with
        | '"' :: r2 =>
          match parseStringBody (f + 1) r2 with
          | none => none
          | some (k, r3) =>
            match skipWs r3 with
            | ':' :: r4 =>
              match parseValue f r4 with
              | none => none
              | some (v, r5) =>
                match parseObjSep f r5 with
                | none => none
                | some (ms, r6) => some ((String.mk k, v) :: ms, r6)
            | _ => none
        | _ => none
      else none

end

/-- Model of Python `json.loads`: parse one JSON document, requiring the whole
input to be consumed; `none` models a raised `json.JSONDecodeError`. -/
def json_loads (s : String) : Option Json :=
  match parseValue (2 * s.length + 2) s.data with
  | none => none
  | some (j, rest) => if skipWs rest = [] then some j else none

/-- Python `dict.get(key, deflt)` over the parsed member list; later duplicate
keys win, matching `json.loads` building a `dict`. -/
def dictGet : List (String × Json) → String → Json → Json
  | [], _, d => d
  | (k, v) :: fs, key, d => if k = key then dictGet fs key v else dictGet fs key d

/-- `data.get(key, deflt)` on a parsed JSON value (only reachable on objects
in the pipeline, since every parsed brace-slice starts with a brace). -/
def jsonGet (j : Json) (key : String) (deflt : Json) : Json :=
  match j with
  | .obj fs => dictGet fs key deflt
  | _ => deflt

/-- The brace-delimited slice: `response_text[start_index : end_index + 1]`
with `start_index = find(lbrace)` and `end_index = rfind(rbrace)`, available
only when both are found (`!= -1`). -/
def find_brace_slice (s : String) : Option String :=
  match pyFind s.data lbrace, pyRFind s.data rbrace with
  | some st, some en => some (String.mk ((s.data.drop st).take (en + 1 - st)))
  | _, _ => none

/-- Outcome of the per-unit response-parsing step shared by all three
pipelines (src/app.py lines 128-135, 88-94, 185-188). -/
inductive ParseOutcome where
  | noJson : ParseOutcome
  | badJson : ParseOutcome
  | ok (text table : Json) : ParseOutcome

/-- The response-parsing step: locate the first brace and the last closing
brace, parse the inclusive slice with `json.loads`, and read the `text` and
`table` fields with their defaults.  `noJson` is the silent no-brace path,
`badJson` models a raised `json.JSONDecodeError`. -/
def parse_model_output (s : String) : ParseOutcome :=
  match find_brace_slice s with
  | none => .noJson
  | some json_string =>
    match json_loads json_string with
    | none => .badJson
    | some data => .ok (jsonGet data "text" (.str "")) (jsonGet data "table" (.arr []))

/-- True when every mantissa character of a number lexeme is `0` (ignoring
sign and decimal point): Python numeric falsiness (`0`, `-0.0`, `0e5`, ...). -/
def numIsZero (lex : String) : Bool :=
  (lex.data.takeWhile (fun c => ¬ (c = 'e' ∨ c = 'E'))).all
    (fun c => c = '0' ∨ c = '-' ∨ c = '.')

/-- Python truthiness of an embedded value (`if x:`). -/
def Json.truthy : Json → Bool
  | .null => false
  | .bool b => b
  | .num lex => ! numIsZero lex
  | .str s => ! s.isEmpty
  | .arr xs => ! xs.isEmpty
  | .obj fs => ! fs.isEmpty

/-- The single-quote character, used by Python `repr` of strings. -/
def sq : Char := Char.ofNat 39

/-- Model of Python `repr` (used by `str()` on container values inside
f-strings). -/
def pyReprOf : Json → String
  | .null => "None"
  | .bool true => "True"
  | .bool false => "False"
  | .num lex => lex
  | .str s => String.singleton sq ++ s ++ String.singleton sq
  | .arr xs => "[" ++ String.intercalate ", " (xs.attach.map (fun x => pyReprOf x.1)) ++ "]"
  | .obj fs =>
    String.singleton lbrace ++
      String.intercalate ", "
        (fs.attach.map (fun kv =>
          String.singleton sq ++ kv.1.1 ++ String.singleton sq ++ ": " ++ pyReprOf kv.1.2)) ++
      String.singleton rbrace
termination_by j => sizeOf j
decreasing_by
  · have h1 := List.sizeOf_lt_of_mem x.2
    simp only [Json.arr.sizeOf_spec]
    omega
  · obtain ⟨⟨k, v⟩, hm⟩ := kv
    have h1 := List.sizeOf_lt_of_mem hm
    simp only [Prod.mk.sizeOf_spec] at h1
    simp only [Json.obj.sizeOf_spec]
    omega

/-- Model of Python `str()` as used in f-string interpolation: a string is
inserted verbatim, other values by their representation (a number by its
source lexeme — a benign model approximation of float formatting). -/
def pyStrOf (j : Json) : String :=
  match j with
  | .str s => s
  | .num lex => lex
  | .bool true => "True"
  | .bool false => "False"
  | .null => "None"
  | .arr xs => pyReprOf (.arr xs)
  | .obj fs => pyReprOf (.obj fs)

/-- One extracted table: `{'title': ..., 'data': ...}`. -/
structure PyTable where
  title : String
  data : Json

/-- Accumulator state of `extract_data_from_pdf`; `warnings` records the
1-indexed page numbers for which `st.warning` was called. -/
structure PdfState where
  aggregated_text : String
  aggregated_tables : List PyTable
  warnings : List Nat

/-- Processing of one PDF page (src/app.py lines 118-142) given the model's
reply for that page (`none` models an API failure, where
`get_gemini_response` returned `None`).  `pageNum` is the 1-indexed page
number `page_num + 1`. -/
def pdf_page_step (pageNum : Nat) (s : PdfState) (resp : Option String) : PdfState :=
  match resp with
  | none => s
  | some response_text =>
    if response_text.isEmpty then s
    else
      match parse_model_output response_text with
      | .noJson => s
      | .badJson => { s with warnings := s.warnings ++ [pageNum] }
      | .ok page_text page_table =>
        let s1 :=
          if page_text.truthy then
            { s with aggregated_text :=
                s.aggregated_text ++ "\n\n--- Page " ++ toString pageNum ++ " ---\n" ++
                  pyStrOf page_text }
          else s
        if page_table.truthy then
          { s1 with aggregated_tables :=
              s1.aggregated_tables ++ [⟨"Table from Page " ++ toString pageNum, page_table⟩] }
        else s1

/-- The page loop of `extract_data_from_pdf`, pages numbered from `n`. -/
def pdf_pages_go : Nat → PdfState → List (Option String) → PdfState
  | _, s, [] => s
  | n, s, r :: rs => pdf_pages_go (n + 1) (pdf_page_step n s r) rs

/-- `extract_data_from_pdf`, taking the per-page model replies as an oracle
list (one entry per rasterized page, in page order). -/
def extract_data_from_pdf (responses : List (Option String)) : PdfState :=
  pdf_pages_go 1 ⟨"", [], []⟩ responses

/-- One DOCX embedded-image unit: either the image bytes fail to decode
(`Image.open` raises) or the model reply for the decoded image. -/
inductive ImgUnit where
  | decodeFail : ImgUnit
  | resp (r : Option String) : ImgUnit

/-- Accumulator state of `extract_data_from_docx`: the `full_text` list of
paragraph/heading strings, the table list (native tables first), and the
1-indexed embedded-image numbers for which `st.warning` was called. -/
structure DocxState where
  full_text : List String
  all_tables_data : List PyTable
  warnings : List Nat

/-- A native Word table (rows of cell text) as the Python value appended by
`extract_data_from_docx`. -/
def rawTableToJson (t : List (List String)) : Json :=
  Json.arr (t.map (fun row => Json.arr (row.map Json.str)))

/-- The native-table pass (src/app.py lines 68-70), numbering from `i`. -/
def nativeTableEntries : Nat → List (List (List String)) → List PyTable
  | _, [] => []
  | i, t :: ts => ⟨"Native Table " ++ toString i, rawTableToJson t⟩ :: nativeTableEntries (i + 1) ts

/-- Processing of one embedded image (src/app.py lines 81-101); the whole
body sits in a `try` whose `except Exception` warns and skips.  `i` is the
1-indexed image number. -/
def docx_image_step (i : Nat) (s : DocxState) (u : ImgUnit) : DocxState :=
  match u with
  | .decodeFail => { s with warnings := s.warnings ++ [i] }
  | .resp none => s
  | .resp (some response_text) =>
    if response_text.isEmpty then s
    else
      match parse_model_output response_text with
      | .noJson => s
      | .badJson => { s with warnings := s.warnings ++ [i] }
      | .ok img_text img_table =>
        let s1 :=
          if img_text.truthy then
            { s with full_text :=
                s.full_text ++
                  ["\n--- Text from Embedded Image " ++ toString i ++ " ---\n" ++ pyStrOf img_text] }
          else s
        if img_table.truthy then
          { s1 with all_tables_data :=
              s1.all_tables_data ++ [⟨"Table from Embedded Image " ++ toString i, img_table⟩] }
        else s1

/-- The embedded-image loop of `extract_data_from_docx`, numbered from `i`. -/
def docx_images_go : Nat → DocxState → List ImgUnit → DocxState
  | _, s, [] => s
  | i, s, u :: us => docx_images_go (i + 1) (docx_image_step i s u) us

/-- `extract_data_from_docx`, taking the paragraph texts, the native tables
(document order) and the embedded-image units (relationship-enumeration
order) as inputs, returning `(joined text, table list, warnings)`. -/
def extract_data_from_docx (paragraphs : List String)
    (native_tables : List (List (List String))) (units : List ImgUnit) :
    String × List PyTable × List Nat :=
  let s0 : DocxState := ⟨paragraphs, nativeTableEntries 1 native_tables, []⟩
  let sF := docx_images_go 1 s0 units
  (String.intercalate "\n" sF.full_text, sF.all_tables_data, sF.warnings)

/-- Result of the image branch of `main` (src/app.py lines 181-192):
`text_result`, `table_result`, and whether `st.error` reported a JSON decode
failure. -/
structure ImageResult where
  text_result : Json
  table_result : List PyTable
  errored : Bool

/-- The image branch of `main`: one model call on the whole file, parsed by
the shared response-parsing step; a single non-falsy table is wrapped as
`Table from Image`.  By construction this branch consumes exactly one model
reply. -/
def process_image_upload (resp : Option String) : ImageResult :=
  match resp with
  | none => ⟨Json.str "", [], false⟩
  | some response_text =>
    if response_text.isEmpty then ⟨Json.str "", [], false⟩
    else
      match parse_model_output response_text with
      | .noJson => ⟨Json.str "", [], false⟩
      | .badJson => ⟨Json.str "", [], true⟩
      | .ok t tbl =>
        ⟨t, if tbl.truthy then [⟨"Table from Image", tbl⟩] else [], false⟩

/-- Python `str.lower()` restricted to ASCII (all pipeline-generated titles
are ASCII). -/
def str_lower (s : String) : String :=
  String.mk (s.data.map Char.toLower)

/-- Python `str.replace(' ', '_')` for single characters. -/
def str_replace_space (s : String) : String :=
  String.mk (s.data.map (fun c => if c = ' ' then '_' else c))

/-- Membership in the character class `[a-z0-9_]`. -/
def filenameCharAllowed (c : Char) : Bool :=
  ('a' ≤ c ∧ c ≤ 'z') ∨ ('0' ≤ c ∧ c ≤ '9') ∨ c = '_'

/-- Python `re.sub` with pattern `[^a-z0-9_]+` and empty replacement: every
maximal run of disallowed characters is deleted, i.e. every disallowed
character is dropped. -/
def re_sub_strip (s : String) : String :=
  String.mk (s.data.filter filenameCharAllowed)

/-- The CSV filename sanitization of `main` (src/app.py line 250). -/
def safe_filename (title : String) : String :=
  re_sub_strip (str_replace_space (str_lower title))

/-- Modelled from the spec: the C9 sanitization rule as the spec words it —
lower-case the title, replace each space with an underscore, and remove
every character outside `[a-z0-9_]` (single pass, nothing else). -/
def sanitize_filename_spec : List Char → List Char
  | [] => []
  | c :: cs =>
    let c1 := Char.toLower c
    let c2 := if c1 = ' ' then '_' else c1
    if filenameCharAllowed c2 then c2 :: sanitize_filename_spec cs
    else sanitize_filename_spec cs

/-- The keys of the Python dict built from parsed members: first-occurrence
order, duplicates collapsed (a later duplicate only overwrote the value). -/
def pyDictKeysAux (seen : List String) : List (String × Json) → List String
  | [] => []
  | (k, _) :: fs =>
    if seen.contains k then pyDictKeysAux seen fs
    else k :: pyDictKeysAux (k :: seen) fs

/-- Python `dict.keys()` of a parsed object, as a list. -/
def pyDictKeys (fs : List (String × Json)) : List String :=
  pyDictKeysAux [] fs

/-- Python `len()` on an embedded value: list length, string length, or the
dict's number of (distinct) keys; `none` models a raised `TypeError` on an
unsized value. -/
def pyLenOfData : Json → Option Nat
  | .arr xs => some xs.length
  | .str s => some s.length
  | .obj fs => some (pyDictKeys fs).length
  | _ => none

/-- `list(row)` on a row taken by pandas' nested-rows conversion: a list
yields its cells, a string its characters, a dict its keys. -/
def rowAsCells : Json → List Json
  | .arr cells => cells
  | .str s => s.data.map (fun c => Json.str (String.singleton c))
  | .obj fs => (pyDictKeys fs).map Json.str
  | v => [v]

/-- pandas `to_object_array(rows)`: every row must support `len()` and
iteration (lists, strings, dicts qualify; numbers, booleans and `None` make
it raise `TypeError`, e.g. `pd.DataFrame([["a"], 1])`).  Rows become cell
lists; padding up to the widest row (with `None`) happens downstream. -/
def to_object_array (rows : List Json) : Option (List (List Json)) :=
  if rows.all (fun r => (pyLenOfData r).isSome) then some (rows.map rowAsCells)
  else none

/-- `pd.Index(r0)`: a list of hashable labels is accepted as is, a dict
contributes its keys, and a string, number, boolean or `None` raises
(`Index(...) must be called with a collection`); a list containing a list
or dict raises (`unhashable type`). -/
def columnsOf : Json → Option (List Json)
  | .arr cols =>
    if cols.all (fun c => match c with
      | .arr _ => false
      | .obj _ => false
      | _ => true) then some cols
    else none
  | .obj fs => some ((pyDictKeys fs).map Json.str)
  | _ => none

/-- Model of `pd.DataFrame(rest, columns=r0)` (src/app.py lines 219 and
251): the header must be index-able (`columnsOf`); the data dispatch on
the first row as pandas does: nested rows must all be sized, with the
widest row exactly the header width (shorter rows pad with `None`); dict
rows are reindexed by the header (missing keys fill, modelled by `null`);
scalar or string rows build one object column and need a 1-label header.
`none` models any raised exception, all caught by the surrounding `try`. -/
def pd_dataframe_with_cols (r0 : Json) (rest : List Json) :
    Option (List Json × List (List Json)) :=
  match columnsOf r0 with
  | none => none
  | some cols =>
    match rest with
    | [] => some (cols, [])
    | d0 :: _ =>
      match d0 with
      | .arr _ =>
        match to_object_array rest with
        | none => none
        | some rows =>
          if (rows.map List.length).foldl Nat.max 0 = cols.length then
            some (cols,
              rows.map (fun r => r ++ List.replicate (cols.length - r.length) Json.null))
          else none
      | .obj _ =>
        if rest.all (fun r => match r with
          | .obj _ => true
          | _ => false) then
          some (cols, rest.map (fun r => match r with
            | .obj gs => cols.map (fun c => match c with
              | .str ck => dictGet gs ck Json.null
              | _ => Json.null)
            | _ => []))
        else none
      | _ =>
        if cols.length = 1 then some (cols, rest.map (fun v => [v]))
        else none

/-- One produced CSV download: filename, header row, data rows. -/
structure CsvFile where
  file_name : String
  header : List Json
  rows : List (List Json)

/-- The per-table CSV export of `main` (src/app.py lines 245-260): the body
sits in a `try`, so every raising path collapses to `none` (no file); a file
is produced only for a list of more than one row that coerces to a
DataFrame. -/
def csv_for_table (t : PyTable) : Option CsvFile :=
  if t.data.truthy then
    match t.data with
    | .arr rows =>
      if rows.length > 1 then
        match rows with
        | r0 :: rest =>
          match pd_dataframe_with_cols r0 rest with
          | some p => some ⟨safe_filename t.title ++ ".csv", p.1, p.2⟩
          | none => none
        | [] => none
      else none
    | _ => none
  else none

/-- Does a title mark a model-derived table entry (`Table from ...`)? -/
def startsWithTableFrom (s : String) : Bool :=
  s.data.take 10 = "Table from".data

/-- Is `pat` a prefix of `l` (executable)? -/
def startsWithList : List Char → List Char → Bool
  | [], _ => true
  | _ :: _, [] => false
  | p :: ps, c :: cs => p = c && startsWithList ps cs

/-- Does `pat` occur as a contiguous substring of `l` (executable)? -/
def occursIn (pat : List Char) : List Char → Bool
  | [] => startsWithList pat []
  | c :: cs => startsWithList pat (c :: cs) || occursIn pat cs

/-- The string consisting of `mid` wrapped in braces: the brace-delimited
JSON candidate of the response-parser contract. -/
def braced (mid : String) : String :=
  String.mk (lbrace :: (mid.data ++ [rbrace]))

/-- Text contributed by one PDF page (closed form of the step). -/
def pdf_page_text_contrib (n : Nat) (r : Option String) : String :=
  match r with
  | none => ""
  | some response_text =>
    if response_text.isEmpty then ""
    else
      match parse_model_output response_text with
      | .ok t _ =>
        if t.truthy then "\n\n--- Page " ++ toString n ++ " ---\n" ++ pyStrOf t else ""
      | _ => ""

/-- Table entries contributed by one PDF page (closed form of the step). -/
def pdf_page_table_contrib (n : Nat) (r : Option String) : List PyTable :=
  match r with
  | none => []
  | some response_text =>
    if response_text.isEmpty then []
    else
      match parse_model_output response_text with
      | .ok _ tb => if tb.truthy then [⟨"Table from Page " ++ toString n, tb⟩] else []
      | _ => []

/-- Warnings contributed by one PDF page (closed form of the step). -/
def pdf_page_warn_contrib (n : Nat) (r : Option String) : List Nat :=
  match r with
  | none => []
  | some response_text =>
    if response_text.isEmpty then []
    else
      match parse_model_output response_text with
      | .badJson => [n]
      | _ => []

/-- Concatenated page-labeled sections, pages numbered from `n`. -/
def pdf_sections : Nat → List (Option String) → String
  | _, [] => ""
  | n, r :: rs => pdf_page_text_contrib n r ++ pdf_sections (n + 1) rs

/-- Concatenated per-page table entries, pages numbered from `n`. -/
def pdf_table_entries : Nat → List (Option String) → List PyTable
  | _, [] => []
  | n, r :: rs => pdf_page_table_contrib n r ++ pdf_table_entries (n + 1) rs

/-- Concatenated per-page warnings, pages numbered from `n`. -/
def pdf_warnings_from : Nat → List (Option String) → List Nat
  | _, [] => []
  | n, r :: rs => pdf_page_warn_contrib n r ++ pdf_warnings_from (n + 1) rs

/-- Heading lines contributed by one embedded image (closed form). -/
def docx_img_text_contrib (i : Nat) (u : ImgUnit) : List String :=
  match u with
  | .decodeFail => []
  | .resp none => []
  | .resp (some response_text) =>
    if response_text.isEmpty then []
    else
      match parse_model_output response_text with
      | .ok t _ =>
        if t.truthy then
          ["\n--- Text from Embedded Image " ++ toString i ++ " ---\n" ++ pyStrOf t]
        else []
      | _ => []

/-- Table entries contributed by one embedded image (closed form). -/
def docx_img_table_contrib (i : Nat) (u : ImgUnit) : List PyTable :=
  match u with
  | .decodeFail => []
  | .resp none => []
  | .resp (some response_text) =>
    if response_text.isEmpty then []
    else
      match parse_model_output response_text with
      | .ok _ tb => if tb.truthy then [⟨"Table from Embedded Image " ++ toString i, tb⟩] else []
      | _ => []

/-- Warnings contributed by one embedded image (closed form). -/
def docx_img_warn_contrib (i : Nat) (u : ImgUnit) : List Nat :=
  match u with
  | .decodeFail => [i]
  | .resp none => []
  | .resp (some response_text) =>
    if response_text.isEmpty then []
    else
      match parse_model_output response_text with
      | .badJson => [i]
      | _ => []

/-- Concatenated embedded-image heading lines, numbered from `i`. -/
def docx_img_texts : Nat → List ImgUnit → List String
  | _, [] => []
  | i, u :: us => docx_img_text_contrib i u ++ docx_img_texts (i + 1) us

/-- Concatenated embedded-image table entries, numbered from `i`. -/
def docx_img_entries : Nat → List ImgUnit → List PyTable
  | _, [] => []
  | i, u :: us => docx_img_table_contrib i u ++ docx_img_entries (i + 1) us

/-- Concatenated embedded-image warnings, numbered from `i`. -/
def docx_img_warnings : Nat → List ImgUnit → List Nat
  | _, [] => []
  | i, u :: us => docx_img_warn_contrib i u ++ docx_img_warnings (i + 1) us

/-- The scenario-A JSON payload without its surrounding braces. -/
def scenarioAMid : String :=
  "\x22text\x22:\x22Hello\x22,\x22table\x22:[[\x22A\x22,\x22B\x22],[\x221\x22,\x222\x22]]"

/-- The parsed fields of the scenario-A payload. -/
def scenarioAFields : List (String × Json) :=
  [("text", Json.str "Hello"),
   ("table", Json.arr [Json.arr [Json.str "A", Json.str "B"],
                       Json.arr [Json.str "1", Json.str "2"]])]

/-- A model reply that is valid JSON with an empty `text` and empty `table`. -/
def pdfEmptyTextResp : String := "\x7b\x22text\x22:\x22\x22,\x22table\x22:[]\x7d"

/-- The scenario-A model reply for a single image upload. -/
def scenarioAResp : String :=
  "Here: \x7b\x22text\x22:\x22Hello\x22,\x22table\x22:[[\x22A\x22,\x22B\x22],[\x221\x22,\x222\x22]]\x7d thanks"

theorem pyFind_eq_none (t : Char) : ∀ l : List Char, t ∉ l → pyFind l t = none := by
  intro l
  induction l with
  | nil => intro _; rfl
  | cons c cs ih =>
    intro h
    simp only [List.mem_cons, not_or] at h
    simp [pyFind, h.1, ih h.2, Ne.symm h.1]

theorem pyFind_append_cons (t : Char) (l1 l2 : List Char) (h : t ∉ l1) :
    pyFind (l1 ++ t :: l2) t = some l1.length := by
  induction l1 with
  | nil => simp [pyFind]
  | cons c cs ih =>
    simp only [List.mem_cons, not_or] at h
    simp [pyFind, Ne.symm h.1, ih h.2]

theorem pyRFind_eq_none (t : Char) : ∀ l : List Char, t ∉ l → pyRFind l t = none := by
  intro l
  induction l with
  | nil => intro _; rfl
  | cons c cs ih =>
    intro h
    simp only [List.mem_cons, not_or] at h
    simp [pyRFind, ih h.2, Ne.symm h.1]

theorem pyRFind_append_cons (t : Char) (l1 l2 : List Char) (h : t ∉ l2) :
    pyRFind (l1 ++ t :: l2) t = some l1.length := by
  induction l1 with
  | nil => simp [pyRFind, pyRFind_eq_none t l2 h]
  | cons c cs ih => simp [pyRFind, ih]

/-- The brace-delimited slice of a string of the shape
`pre ++ braced mid ++ post` with no opening brace in `pre` and no closing
brace in `post` is exactly `braced mid`. -/
theorem find_brace_slice_of_shape (pre mid post : String)
    (hpre : lbrace ∉ pre.data) (hpost : rbrace ∉ post.data) :
    find_brace_slice (pre ++ braced mid ++ post) = some (braced mid) := by
  have hdata : (pre ++ braced mid ++ post).data =
      pre.data ++ lbrace :: ((mid.data ++ [rbrace]) ++ post.data) := by
    simp [braced, String.data_append]
  have hfind : pyFind (pre ++ braced mid ++ post).data lbrace = some pre.data.length := by
    rw [hdata]
    exact pyFind_append_cons lbrace pre.data _ hpre
  have hdata2 : (pre ++ braced mid ++ post).data =
      (pre.data ++ lbrace :: mid.data) ++ rbrace :: post.data := by
    simp [braced, String.data_append]
  have hrfind : pyRFind (pre ++ braced mid ++ post).data rbrace =
      some (pre.data.length + 1 + mid.data.length) := by
    rw [hdata2, pyRFind_append_cons rbrace _ _ hpost]
    simp
    omega
  simp only [find_brace_slice, hfind, hrfind]
  have hdrop : ((pre ++ braced mid ++ post).data.drop pre.data.length) =
      (lbrace :: (mid.data ++ [rbrace])) ++ post.data := by
    rw [hdata]
    have h2 := List.drop_left pre.data (lbrace :: ((mid.data ++ [rbrace]) ++ post.data))
    rw [h2]
    simp
  have htake : (((lbrace :: (mid.data ++ [rbrace])) ++ post.data).take
      (pre.data.length + 1 + mid.data.length + 1 - pre.data.length)) =
      lbrace :: (mid.data ++ [rbrace]) := by
    apply List.take_left'
    simp
    omega
  rw [hdrop, htake]
  rfl

/-- On a string of the delimited shape, the response-parsing step parses
exactly the brace-delimited candidate. -/
theorem parse_model_output_of_shape (pre mid post : String)
    (hpre : lbrace ∉ pre.data) (hpost : rbrace ∉ post.data) :
    parse_model_output (pre ++ braced mid ++ post) =
      (match json_loads (braced mid) with
       | none => ParseOutcome.badJson
       | some data =>
         ParseOutcome.ok (jsonGet data "text" (.str "")) (jsonGet data "table" (.arr []))) := by
  simp only [parse_model_output, find_brace_slice_of_shape pre mid post hpre hpost]

theorem pdf_page_step_eq (n : Nat) (s : PdfState) (r : Option String) :
    pdf_page_step n s r =
      ⟨s.aggregated_text ++ pdf_page_text_contrib n r,
       s.aggregated_tables ++ pdf_page_table_contrib n r,
       s.warnings ++ pdf_page_warn_contrib n r⟩ := by
  cases r with
  | none =>
    simp [pdf_page_step, pdf_page_text_contrib, pdf_page_table_contrib, pdf_page_warn_contrib]
  | some rt =>
    simp only [pdf_page_step, pdf_page_text_contrib, pdf_page_table_contrib,
      pdf_page_warn_contrib]
    by_cases he : rt.isEmpty
    · simp [he]
    · simp only [he, if_false, Bool.false_eq_true]
      cases hp : parse_model_output rt with
      | noJson => simp
      | badJson => simp
      | ok t tb =>
        by_cases ht : t.truthy <;> by_cases htb : tb.truthy <;>
          simp [ht, htb, String.append_assoc]

theorem pdf_pages_go_closed (rs : List (Option String)) : ∀ (n : Nat) (s : PdfState),
    pdf_pages_go n s rs =
      ⟨s.aggregated_text ++ pdf_sections n rs,
       s.aggregated_tables ++ pdf_table_entries n rs,
       s.warnings ++ pdf_warnings_from n rs⟩ := by
  induction rs with
  | nil =>
    intro n s
    simp [pdf_pages_go, pdf_sections, pdf_table_entries, pdf_warnings_from]
  | cons r rs ih =>
    intro n s
    simp only [pdf_pages_go, pdf_sections, pdf_table_entries, pdf_warnings_from]
    rw [pdf_page_step_eq, ih]
    simp [String.append_assoc]

/-- The full closed form of the PDF extractor. -/
theorem extract_data_from_pdf_closed (responses : List (Option String)) :
    extract_data_from_pdf responses =
      ⟨pdf_sections 1 responses, pdf_table_entries 1 responses,
       pdf_warnings_from 1 responses⟩ := by
  rw [extract_data_from_pdf, pdf_pages_go_closed]
  simp [String.empty_append]

theorem docx_image_step_eq (i : Nat) (s : DocxState) (u : ImgUnit) :
    docx_image_step i s u =
      ⟨s.full_text ++ docx_img_text_contrib i u,
       s.all_tables_data ++ docx_img_table_contrib i u,
       s.warnings ++ docx_img_warn_contrib i u⟩ := by
  cases u with
  | decodeFail =>
    simp [docx_image_step, docx_img_text_contrib, docx_img_table_contrib,
      docx_img_warn_contrib]
  | resp r =>
    cases r with
    | none =>
      simp [docx_image_step, docx_img_text_contrib, docx_img_table_contrib,
        docx_img_warn_contrib]
    | some rt =>
      simp only [docx_image_step, docx_img_text_contrib, docx_img_table_contrib,
        docx_img_warn_contrib]
      by_cases he : rt.isEmpty
      · simp [he]
      · simp only [he, if_false, Bool.false_eq_true]
        cases hp : parse_model_output rt with
        | noJson => simp
        | badJson => simp
        | ok t tb =>
          by_cases ht : t.truthy <;> by_cases htb : tb.truthy <;> simp [ht, htb]

theorem docx_images_go_closed (us : List ImgUnit) : ∀ (i : Nat) (s : DocxState),
    docx_images_go i s us =
      ⟨s.full_text ++ docx_img_texts i us,
       s.all_tables_data ++ docx_img_entries i us,
       s.warnings ++ docx_img_warnings i us⟩ := by
  induction us with
  | nil =>
    intro i s
    simp [docx_images_go, docx_img_texts, docx_img_entries, docx_img_warnings]
  | cons u us ih =>
    intro i s
    simp only [docx_images_go, docx_img_texts, docx_img_entries, docx_img_warnings]
    rw [docx_image_step_eq, ih]
    simp

/-- The full closed form of the DOCX extractor. -/
theorem extract_data_from_docx_closed (paragraphs : List String)
    (native_tables : List (List (List String))) (units : List ImgUnit) :
    extract_data_from_docx paragraphs native_tables units =
      (String.intercalate "\n" (paragraphs ++ docx_img_texts 1 units),
       nativeTableEntries 1 native_tables ++ docx_img_entries 1 units,
       docx_img_warnings 1 units) := by
  rw [extract_data_from_docx]
  simp only [docx_images_go_closed]
  simp

theorem parse_model_output_of_isEmpty (s : String) (h : s.isEmpty = true) :
    parse_model_output s = ParseOutcome.noJson := by
  rw [(String.isEmpty_iff s).mp h]
  rfl

theorem pdf_warnings_from_eq_nil (pages : List (Option String))
    (h : ∀ r ∈ pages, ∃ s t tb, r = some s ∧ parse_model_output s = ParseOutcome.ok t tb) :
    ∀ n, pdf_warnings_from n pages = [] := by
  induction pages with
  | nil => intro n; rfl
  | cons r rs ih =>
    intro n
    obtain ⟨s, t, tb, hr, hp⟩ := h r (List.mem_cons_self r rs)
    have htail := ih (fun r2 hr2 => h r2 (List.mem_cons_of_mem r hr2))
    simp only [pdf_warnings_from, htail, List.append_nil]
    rw [hr]
    simp only [pdf_page_warn_contrib]
    by_cases he : s.isEmpty <;> simp [he, hp]

/-- C1: for every raw model-output string containing a well-formed JSON
object delimited by the first opening brace and the last closing brace (no
opening brace before it, no closing brace after it), the response-parsing
step parses exactly that substring and returns the object's `text` field
(default empty string) and `table` field (default empty list). -/
theorem claim_C1_parser_returns_text_and_table_fields
    (pre mid post : String) (fields : List (String × Json))
    (hpre : lbrace ∉ pre.data) (hpost : rbrace ∉ post.data)
    (hwf : json_loads (braced mid) = some (Json.obj fields)) :
    parse_model_output (pre ++ braced mid ++ post) =
      ParseOutcome.ok (dictGet fields "text" (Json.str ""))
        (dictGet fields "table" (Json.arr [])) := by
  rw [parse_model_output_of_shape pre mid post hpre hpost, hwf]
  rfl

/-- C1 witness: the theorem applied to the concrete scenario-A reply. -/
theorem claim_C1_witness :
    lbrace ∉ "Here: ".data ∧ rbrace ∉ " thanks".data ∧
    json_loads (braced scenarioAMid) = some (Json.obj scenarioAFields) ∧
    parse_model_output ("Here: " ++ braced scenarioAMid ++ " thanks") =
      ParseOutcome.ok (Json.str "Hello")
        (Json.arr [Json.arr [Json.str "A", Json.str "B"],
                   Json.arr [Json.str "1", Json.str "2"]]) := by
  refine ⟨by decide, by decide, rfl, ?_⟩
  exact claim_C1_parser_returns_text_and_table_fields "Here: " scenarioAMid " thanks"
    scenarioAFields (by decide) (by decide) rfl

/-- C2 counterexample: a 1-page PDF whose page reply is valid JSON with an
empty `text` field.  The premise of C2 holds (the call succeeded and the
reply parses as valid JSON), yet the aggregate text is empty — it contains
zero `--- Page 1 ---`-labeled sections, not exactly one. -/
theorem claim_C2_counterexample :
    parse_model_output pdfEmptyTextResp = ParseOutcome.ok (Json.str "") (Json.arr []) ∧
    extract_data_from_pdf [some pdfEmptyTextResp] = ⟨"", [], []⟩ ∧
    occursIn "--- Page 1 ---".data
      (extract_data_from_pdf [some pdfEmptyTextResp]).aggregated_text.data = false :=
  ⟨rfl, rfl, rfl⟩

/-- C2 (amended): for a PDF whose every page's model call succeeds and
parses as valid JSON, the aggregate text is exactly the concatenation, in
page order, of one `--- Page N ---`-labeled section per page whose parsed
`text` field is truthy (non-empty), the aggregate table list is exactly the
concatenation of one `Table from Page N` entry per page whose parsed
`table` field is truthy, numbered by that page's 1-index, and no warnings
are emitted. -/
theorem claim_C2_pdf_aggregation_amended (pages : List (Option String))
    (hvalid : ∀ r ∈ pages, ∃ s t tb, r = some s ∧
      parse_model_output s = ParseOutcome.ok t tb) :
    extract_data_from_pdf pages =
      ⟨pdf_sections 1 pages, pdf_table_entries 1 pages, []⟩ := by
  rw [extract_data_from_pdf_closed, pdf_warnings_from_eq_nil pages hvalid 1]

/-- C2 witness: a 2-page PDF, page 1 with text only, page 2 with a table. -/
theorem claim_C2_witness :
    extract_data_from_pdf
        [some "\x7b\x22text\x22:\x22T1\x22\x7d",
         some "\x7b\x22table\x22:[[\x22H\x22],[\x22d\x22]]\x7d"] =
      ⟨"\n\n--- Page 1 ---\nT1",
       [⟨"Table from Page 2", Json.arr [Json.arr [Json.str "H"], Json.arr [Json.str "d"]]⟩],
       []⟩ := by
  have h := claim_C2_pdf_aggregation_amended
    [some "\x7b\x22text\x22:\x22T1\x22\x7d",
     some "\x7b\x22table\x22:[[\x22H\x22],[\x22d\x22]]\x7d"]
    (by
      intro r hr
      simp only [List.mem_cons, List.mem_singleton] at hr
      rcases hr with h1 | h1 | h1
      · exact ⟨_, Json.str "T1", Json.arr [], h1, rfl⟩
      · exact ⟨_, Json.str "",
          Json.arr [Json.arr [Json.str "H"], Json.arr [Json.str "d"]], h1, rfl⟩
      · cases h1)
  rw [h]
  rfl

/-- C3: a per-unit JSON parse failure (or, for DOCX, any per-unit processing
error such as an image decode failure) appends exactly one warning for that
unit, contributes nothing, leaves the aggregate text and table list exactly
as they were before the unit, and processing continues with the remaining
units — no per-unit failure aborts the document. -/
theorem claim_C3_unit_failure_warns_skips_continues
    (n : Nat) (s : PdfState) (bad : String) (rest : List (Option String))
    (i : Nat) (d : DocxState) (us : List ImgUnit)
    (hbad : parse_model_output bad = ParseOutcome.badJson) :
    pdf_pages_go n s (some bad :: rest) =
      pdf_pages_go (n + 1) ⟨s.aggregated_text, s.aggregated_tables, s.warnings ++ [n]⟩ rest ∧
    docx_images_go i d (ImgUnit.resp (some bad) :: us) =
      docx_images_go (i + 1) ⟨d.full_text, d.all_tables_data, d.warnings ++ [i]⟩ us ∧
    docx_images_go i d (ImgUnit.decodeFail :: us) =
      docx_images_go (i + 1) ⟨d.full_text, d.all_tables_data, d.warnings ++ [i]⟩ us := by
  have hne : bad.isEmpty = false := by
    cases he : bad.isEmpty
    · rfl
    · rw [parse_model_output_of_isEmpty bad he] at hbad
      cases hbad
  refine ⟨?_, ?_, ?_⟩
  · simp only [pdf_pages_go]
    congr 1
    simp [pdf_page_step, hne, hbad]
  · simp only [docx_images_go]
    congr 1
    simp [docx_image_step, hne, hbad]
  · rfl

/-- C3 witness: the theorem applied to a concrete malformed reply. -/
theorem claim_C3_witness :
    parse_model_output "\x7boops\x7d" = ParseOutcome.badJson ∧
    pdf_pages_go 1 ⟨"", [], []⟩ [some "\x7boops\x7d"] = ⟨"", [], [1]⟩ ∧
    docx_images_go 1 ⟨[], [], []⟩ [ImgUnit.resp (some "\x7boops\x7d")] = ⟨[], [], [1]⟩ ∧
    docx_images_go 1 ⟨[], [], []⟩ [ImgUnit.decodeFail] = ⟨[], [], [1]⟩ := by
  have h := claim_C3_unit_failure_warns_skips_continues 1 ⟨"", [], []⟩ "\x7boops\x7d" []
    1 ⟨[], [], []⟩ [] rfl
  exact ⟨rfl, h.1, h.2.1, h.2.2⟩

/-- C4: a raw reply containing no opening brace or no closing brace yields
the silent no-extraction outcome: the parse step reports `noJson`, the image
branch returns empty text, an empty table list and no error, and a PDF page
step leaves the accumulator untouched (no warning, no contribution). -/
theorem claim_C4_no_brace_returns_empty_without_error
    (s : String) (n : Nat) (st : PdfState)
    (h : lbrace ∉ s.data ∨ rbrace ∉ s.data) :
    parse_model_output s = ParseOutcome.noJson ∧
    process_image_upload (some s) = ⟨Json.str "", [], false⟩ ∧
    pdf_page_step n st (some s) = st := by
  have hp : parse_model_output s = ParseOutcome.noJson := by
    simp only [parse_model_output, find_brace_slice]
    cases h with
    | inl h1 =>
      rw [pyFind_eq_none lbrace s.data h1]
    | inr h2 =>
      rw [pyRFind_eq_none rbrace s.data h2]
      cases pyFind s.data lbrace <;> rfl
  refine ⟨hp, ?_, ?_⟩
  · by_cases he : s.isEmpty <;> simp [process_image_upload, he, hp]
  · by_cases he : s.isEmpty <;> simp [pdf_page_step, he, hp]

/-- C4 witness: the theorem applied to a concrete brace-free reply. -/
theorem claim_C4_witness :
    (lbrace ∉ "no json here".data ∨ rbrace ∉ "no json here".data) ∧
    parse_model_output "no json here" = ParseOutcome.noJson ∧
    process_image_upload (some "no json here") = ⟨Json.str "", [], false⟩ ∧
    pdf_page_step 1 ⟨"", [], []⟩ (some "no json here") = ⟨"", [], []⟩ := by
  have h := claim_C4_no_brace_returns_empty_without_error "no json here" 1 ⟨"", [], []⟩
    (Or.inl (by decide))
  exact ⟨Or.inl (by decide), h.1, h.2.1, h.2.2⟩

theorem nativeTableEntries_length (ts : List (List (List String))) :
    ∀ i, (nativeTableEntries i ts).length = ts.length := by
  induction ts with
  | nil => intro i; rfl
  | cons t ts ih => intro i; simp [nativeTableEntries, ih (i + 1)]

theorem nativeTableEntries_getD_title (ts : List (List (List String))) :
    ∀ i k, k < ts.length →
      ((nativeTableEntries i ts).getD k ⟨"", Json.null⟩).title =
        "Native Table " ++ toString (i + k) := by
  induction ts with
  | nil => intro i k hk; cases hk
  | cons t ts ih =>
    intro i k hk
    cases k with
    | zero => simp [nativeTableEntries]
    | succ k2 =>
      simp only [nativeTableEntries, List.getD_cons_succ]
      rw [ih (i + 1) k2 (by simpa using hk)]
      congr 2
      omega

theorem docx_img_table_contrib_cases (i : Nat) (u : ImgUnit) :
    docx_img_table_contrib i u = [] ∨
    ∃ tb, docx_img_table_contrib i u =
        [⟨"Table from Embedded Image " ++ toString i, tb⟩] ∧ tb.truthy = true := by
  cases u with
  | decodeFail => exact Or.inl rfl
  | resp r =>
    cases r with
    | none => exact Or.inl rfl
    | some rt =>
      simp only [docx_img_table_contrib]
      by_cases he : rt.isEmpty
      · simp [he]
      · simp only [he, Bool.false_eq_true, if_false]
        cases hp : parse_model_output rt with
        | noJson => exact Or.inl rfl
        | badJson => exact Or.inl rfl
        | ok t tb =>
          by_cases htb : tb.truthy = true
          · exact Or.inr ⟨tb, by simp [htb], htb⟩
          · simp [htb]

theorem docx_img_entries_length_le (us : List ImgUnit) :
    ∀ i, (docx_img_entries i us).length ≤ us.length := by
  induction us with
  | nil => intro i; simp [docx_img_entries]
  | cons u us ih =>
    intro i
    simp only [docx_img_entries, List.length_append, List.length_cons]
    have h1 : (docx_img_table_contrib i u).length ≤ 1 := by
      rcases docx_img_table_contrib_cases i u with h | ⟨tb, h, _⟩ <;> simp [h]
    have h2 := ih (i + 1)
    omega

theorem docx_img_entries_mem (us : List ImgUnit) :
    ∀ i e, e ∈ docx_img_entries i us →
      ∃ j, i ≤ j ∧ j < i + us.length ∧
        ∃ tb, e = ⟨"Table from Embedded Image " ++ toString j, tb⟩ ∧ tb.truthy = true := by
  induction us with
  | nil => intro i e he; cases he
  | cons u us ih =>
    intro i e he
    simp only [docx_img_entries, List.mem_append] at he
    cases he with
    | inl h1 =>
      rcases docx_img_table_contrib_cases i u with h | ⟨tb, h, htb⟩
      · rw [h] at h1; cases h1
      · rw [h] at h1
        simp only [List.mem_singleton] at h1
        exact ⟨i, Nat.le_refl i, by simp, tb, h1, htb⟩
    | inr h2 =>
      obtain ⟨j, hj1, hj2, tb, he2, htb⟩ := ih (i + 1) e h2
      exact ⟨j, by omega, by simp only [List.length_cons]; omega, tb, he2, htb⟩

/-- C5: for every DOCX, the aggregate table list is exactly the native-table
entries (one per native table, titled `Native Table i` in document order)
followed by the embedded-image entries (at most one per image, titled
`Table from Embedded Image i` in relationship-enumeration order) — natives
always precede image entries, independent of model output. -/
theorem claim_C5_docx_native_tables_precede_image_tables
    (paragraphs : List String) (native_tables : List (List (List String)))
    (units : List ImgUnit) :
    (extract_data_from_docx paragraphs native_tables units).2.1 =
      nativeTableEntries 1 native_tables ++ docx_img_entries 1 units ∧
    (nativeTableEntries 1 native_tables).length = native_tables.length ∧
    (docx_img_entries 1 units).length ≤ units.length ∧
    (∀ k, k < native_tables.length →
      ((nativeTableEntries 1 native_tables).getD k ⟨"", Json.null⟩).title =
        "Native Table " ++ toString (k + 1)) ∧
    (∀ e ∈ docx_img_entries 1 units, ∃ j, 1 ≤ j ∧ j ≤ units.length ∧
      ∃ tb, e = ⟨"Table from Embedded Image " ++ toString j, tb⟩) := by
  refine ⟨?_, nativeTableEntries_length native_tables 1,
    docx_img_entries_length_le units 1, ?_, ?_⟩
  · rw [extract_data_from_docx_closed]
  · intro k hk
    rw [nativeTableEntries_getD_title native_tables 1 k hk]
    congr 2
    omega
  · intro e he
    obtain ⟨j, hj1, hj2, tb, he2, _⟩ := docx_img_entries_mem units 1 e he
    exact ⟨j, hj1, by omega, tb, he2⟩

/-- C5 witness: the theorem applied to a DOCX with one native table and two
embedded images of which only the second returns a table. -/
theorem claim_C5_witness :
    (extract_data_from_docx ["p"] [[["a"]]]
        [ImgUnit.resp none, ImgUnit.resp (some "\x7b\x22table\x22:[[\x22Z\x22]]\x7d")]).2.1 =
      [⟨"Native Table 1", Json.arr [Json.arr [Json.str "a"]]⟩,
       ⟨"Table from Embedded Image 2", Json.arr [Json.arr [Json.str "Z"]]⟩] ∧
    ((nativeTableEntries 1 [[["a"]]]).getD 0 ⟨"", Json.null⟩).title = "Native Table 1" := by
  have h := claim_C5_docx_native_tables_precede_image_tables ["p"] [[["a"]]]
    [ImgUnit.resp none, ImgUnit.resp (some "\x7b\x22table\x22:[[\x22Z\x22]]\x7d")]
  refine ⟨?_, h.2.2.2.1 0 (by decide)⟩
  rw [h.1]
  rfl

/-- C6: the image branch makes a single model call (it consumes exactly one
reply by construction) and parses it via the shared response-parsing step;
on the scenario-A reply it returns text `Hello` and exactly one table titled
`Table from Image` with the given rows, with no error. -/
theorem claim_C6_image_dispatch_scenario_a :
    process_image_upload (some scenarioAResp) =
      ⟨Json.str "Hello",
       [⟨"Table from Image",
         Json.arr [Json.arr [Json.str "A", Json.str "B"],
                   Json.arr [Json.str "1", Json.str "2"]]⟩],
       false⟩ :=
  rfl

theorem sanitize_chars_eq (cs : List Char) :
    ((cs.map Char.toLower).map (fun c => if c = ' ' then '_' else c)).filter
        filenameCharAllowed = sanitize_filename_spec cs := by
  induction cs with
  | nil => rfl
  | cons c cs ih =>
    simp only [List.map_cons, List.filter_cons, sanitize_filename_spec]
    rw [ih]

theorem safe_filename_eq_spec (title : String) :
    safe_filename title = String.mk (sanitize_filename_spec title.data) := by
  simp only [safe_filename, re_sub_strip, str_replace_space, str_lower]
  rw [sanitize_chars_eq]

/-- C9: every CSV file produced by the export carries the filename obtained
from the table title by lower-casing, replacing spaces with underscores and
deleting every character outside the class `[a-z0-9_]` — and nothing else —
plus the `.csv` extension. -/
theorem claim_C9_csv_filename_sanitization (t : PyTable) (c : CsvFile)
    (h : csv_for_table t = some c) :
    c.file_name = String.mk (sanitize_filename_spec t.title.data) ++ ".csv" := by
  rw [← safe_filename_eq_spec]
  simp only [csv_for_table] at h
  repeat split at h
  all_goals first
    | exact Option.noConfusion h
    | (rw [← Option.some.inj h])

/-- C9 witness: the theorem applied to a concrete exported table. -/
theorem claim_C9_witness :
    csv_for_table ⟨"Table from Page 7",
        Json.arr [Json.arr [Json.str "A"], Json.arr [Json.str "1"]]⟩ =
      some ⟨"table_from_page_7.csv", [Json.str "A"], [[Json.str "1"]]⟩ ∧
    ("table_from_page_7.csv" : String) =
      String.mk (sanitize_filename_spec "Table from Page 7".data) ++ ".csv" := by
  refine ⟨rfl, ?_⟩
  exact claim_C9_csv_filename_sanitization
    ⟨"Table from Page 7", Json.arr [Json.arr [Json.str "A"], Json.arr [Json.str "1"]]⟩
    ⟨"table_from_page_7.csv", [Json.str "A"], [[Json.str "1"]]⟩ rfl

theorem pdf_page_table_contrib_cases (n : Nat) (r : Option String) :
    pdf_page_table_contrib n r = [] ∨
    ∃ tb, pdf_page_table_contrib n r =
        [⟨"Table from Page " ++ toString n, tb⟩] ∧ tb.truthy = true := by
  cases r with
  | none => exact Or.inl rfl
  | some rt =>
    simp only [pdf_page_table_contrib]
    by_cases he : rt.isEmpty
    · simp [he]
    · simp only [he, Bool.false_eq_true, if_false]
      cases hp : parse_model_output rt with
      | noJson => exact Or.inl rfl
      | badJson => exact Or.inl rfl
      | ok t tb =>
        by_cases htb : tb.truthy = true
        · exact Or.inr ⟨tb, by simp [htb], htb⟩
        · simp [htb]

theorem pdf_table_entries_truthy (rs : List (Option String)) :
    ∀ n t, t ∈ pdf_table_entries n rs → t.data.truthy = true := by
  induction rs with
  | nil => intro n t ht; cases ht
  | cons r rs ih =>
    intro n t ht
    simp only [pdf_table_entries, List.mem_append] at ht
    cases ht with
    | inl h1 =>
      rcases pdf_page_table_contrib_cases n r with h | ⟨tb, h, htb⟩
      · rw [h] at h1; cases h1
      · rw [h] at h1
        rw [List.mem_singleton] at h1
        subst h1
        exact htb
    | inr h2 => exact ih (n + 1) t h2

theorem nativeTableEntries_mem_title (ts : List (List (List String))) :
    ∀ i t, t ∈ nativeTableEntries i ts →
      ∃ j : Nat, t.title = "Native Table " ++ toString j := by
  induction ts with
  | nil => intro i t ht; cases ht
  | cons x ts ih =>
    intro i t ht
    cases ht with
    | head => exact ⟨i, rfl⟩
    | tail _ h2 => exact ih (i + 1) t h2

theorem startsWithTableFrom_native_false (i : Nat) :
    startsWithTableFrom ("Native Table " ++ toString i) = false := by
  simp only [startsWithTableFrom, String.data_append]
  rw [decide_eq_false_iff_not]
  rw [List.take_append_of_le_length (by decide)]
  decide

theorem process_image_tables_truthy (resp : Option String) :
    ∀ t ∈ (process_image_upload resp).table_result, t.data.truthy = true := by
  intro t ht
  cases resp with
  | none => cases ht
  | some rt =>
    simp only [process_image_upload] at ht
    by_cases he : rt.isEmpty
    · simp [he] at ht
    · simp only [he, Bool.false_eq_true, if_false] at ht
      cases hp : parse_model_output rt with
      | noJson => rw [hp] at ht; cases ht
      | badJson => rw [hp] at ht; cases ht
      | ok x tb =>
        rw [hp] at ht
        by_cases htb : tb.truthy = true
        · simp only [htb, if_true] at ht
          rw [List.mem_singleton] at ht
          subst ht
          exact htb
        · simp [htb] at ht

/-- C10: in every extraction path, a model-derived table entry — one whose
title begins with `Table from` — is appended only under the truthiness
guard on its parsed `table` value, so every such entry in the result has
truthy (non-empty) data; native DOCX entries are exempt (their titles do
not begin with `Table from`). -/
theorem claim_C10_model_derived_entries_truthy
    (responses : List (Option String)) (paragraphs : List String)
    (native_tables : List (List (List String))) (units : List ImgUnit)
    (resp : Option String) :
    (∀ t ∈ (extract_data_from_pdf responses).aggregated_tables,
      startsWithTableFrom t.title = true → t.data.truthy = true) ∧
    (∀ t ∈ (extract_data_from_docx paragraphs native_tables units).2.1,
      startsWithTableFrom t.title = true → t.data.truthy = true) ∧
    (∀ t ∈ (process_image_upload resp).table_result,
      startsWithTableFrom t.title = true → t.data.truthy = true) := by
  refine ⟨?_, ?_, ?_⟩
  · intro t ht _
    rw [extract_data_from_pdf_closed] at ht
    exact pdf_table_entries_truthy responses 1 t ht
  · intro t ht hsw
    rw [extract_data_from_docx_closed] at ht
    simp only [List.mem_append] at ht
    cases ht with
    | inl h1 =>
      obtain ⟨j, hj⟩ := nativeTableEntries_mem_title native_tables 1 t h1
      rw [hj, startsWithTableFrom_native_false j] at hsw
      cases hsw
    | inr h2 =>
      obtain ⟨j, _, _, tb, he2, htb⟩ := docx_img_entries_mem units 1 t h2
      subst he2
      exact htb
  · exact fun t ht _ => process_image_tables_truthy resp t ht

/-- C10 witness: the theorem applied to concrete inputs whose three paths
each produce one `Table from ...` entry. -/
theorem claim_C10_witness :
    (Json.arr [Json.arr [Json.str "q"]]).truthy = true ∧
    (Json.arr [Json.arr [Json.str "w"]]).truthy = true ∧
    (Json.arr [Json.arr [Json.str "e"]]).truthy = true := by
  have h := claim_C10_model_derived_entries_truthy
    [some "\x7b\x22table\x22:[[\x22q\x22]]\x7d"] [] []
    [ImgUnit.resp (some "\x7b\x22table\x22:[[\x22w\x22]]\x7d")]
    (some "\x7b\x22table\x22:[[\x22e\x22]]\x7d")
  refine ⟨?_, ?_, ?_⟩
  · exact h.1 ⟨"Table from Page 1", Json.arr [Json.arr [Json.str "q"]]⟩
      (List.mem_cons_self _ _) (by decide)
  · exact h.2.1 ⟨"Table from Embedded Image 1", Json.arr [Json.arr [Json.str "w"]]⟩
      (List.mem_cons_self _ _) (by decide)
  · exact h.2.2 ⟨"Table from Image", Json.arr [Json.arr [Json.str "e"]]⟩
      (List.mem_cons_self _ _) (by decide)

end Dockster
